import Mathlib

/-!
Verification development for JamesDunne/jpeg-renamer.

The repository holds two Go programs sharing most of their logic:
  * src/main.go          -- the scanning variant (walks a -source folder)
  * src/unnamed/part_000 -- the positional-arguments variant

Below, each Go function or code region is embedded as a Lean definition.
External capabilities (the EXIF library, time.Parse, the filesystem) are
modelled as explicit inputs: each external call's outcome is a field of an
environment record, and a call that may raise a Go runtime panic is given
a distinguished fault outcome.  Strings are manipulated through their
character lists; Go byte indexing coincides with character indexing on the
ASCII data handled by this program.
-/

/-- Result of a fallible Go call: a value, a returned error, or a runtime
panic (fault).  Go errors are compared by identity in the source, so the
sentinel errNoDateTimeOriginal is a dedicated constructor. -/
inductive GoError where
  | noDateTimeOriginal
  | other (msg : String)
deriving DecidableEq

inductive Outcome (α : Type) where
  | ok (a : α)
  | err (e : GoError)
  | fault
deriving DecidableEq

/-- Sequencing with Go's early-return-on-error pattern; a fault propagates
like an unrecovered panic. -/
def Outcome.bind {α β : Type} : Outcome α → (α → Outcome β) → Outcome β
  | .ok a, f => f a
  | .err e, _ => .err e
  | .fault, _ => .fault

/-- Whether an outcome is an escaping runtime fault. -/
def Outcome.isFault {α : Type} : Outcome α → Bool
  | .fault => true
  | _ => false

/-- A Go time.Time value, at the resolution this program uses. -/
structure GoTime where
  year : Nat
  month : Nat
  day : Nat
  hour : Nat
  minute : Nat
  second : Nat
  nanosecond : Nat
deriving DecidableEq

/-- The zero value of Go's time.Time: January 1, year 1, 00:00:00 UTC. -/
def goZeroTime : GoTime := ⟨1, 1, 1, 0, 0, 0, 0⟩

/-- ASCII lower-casing of one character, as strings.ToLower acts on the
ASCII file extensions this program handles. -/
def charToLower (c : Char) : Char :=
  if 'A' ≤ c ∧ c ≤ 'Z' then Char.ofNat (c.toNat + 32) else c

def toLowerStr (s : String) : String := ⟨s.data.map charToLower⟩

/-- strings.HasPrefix s pre. -/
def strStartsWith (s pre : String) : Bool := pre.data.isPrefixOf s.data

/-- Scan a reversed character list for the first dot, stopping at a path
separator, and return its distance from the end; mirrors the backwards
loop shared by NoExt (both variants) and filepath.Ext. -/
def findDotRev : List Char → Option Nat
  | [] => none
  | c :: rest =>
    if c = '/' then none
    else if c = '.' then some 0
    else (findDotRev rest).map Nat.succ

/-- NoExt from the source: the path up to (excluding) the final dot of its
last element, or the empty string when there is none. -/
def NoExt (path : String) : String :=
  match findDotRev path.data.reverse with
  | none => ""
  | some k => ⟨path.data.take (path.data.length - 1 - k)⟩

/-- filepath.Ext: the suffix starting at the final dot of the last path
element (dot included), or empty. -/
def goFilepathExt (path : String) : String :=
  match findDotRev path.data.reverse with
  | none => ""
  | some k => ⟨path.data.drop (path.data.length - 1 - k)⟩

/-- Distance from the end of the last path separator in a reversed
character list. -/
def findSepRev : List Char → Option Nat
  | [] => none
  | c :: rest => if c = '/' then some 0 else (findSepRev rest).map Nat.succ

/-- filepath.Split: directory part (with its trailing separator) and file
part. -/
def filepathSplit (path : String) : String × String :=
  match findSepRev path.data.reverse with
  | none => ("", path)
  | some k =>
    let i := path.data.length - 1 - k
    (⟨path.data.take (i + 1)⟩, ⟨path.data.drop (i + 1)⟩)

/-- filepath.Join of two already-clean components. -/
def joinPath (a b : String) : String :=
  if a = "" then b else if b = "" then a else a ++ "/" ++ b

/-- Glob match for the source's pattern star-dot-[jJ][pP][gG]: the name's
last four characters are a dot and the classified letters (the star covers
any leading characters of a filename, which contains no separator). -/
def isJpgName (name : String) : Bool :=
  match name.data.reverse with
  | g :: p :: j :: dot :: _ =>
    dot = '.' && (j = 'j' || j = 'J') && (p = 'p' || p = 'P') && (g = 'g' || g = 'G')
  | _ => false

/-- Glob match for star-dot-[jJ][pP][eE][gG]. -/
def isJpegName (name : String) : Bool :=
  match name.data.reverse with
  | g :: e :: p :: j :: dot :: _ =>
    dot = '.' && (j = 'j' || j = 'J') && (p = 'p' || p = 'P') &&
      (e = 'e' || e = 'E') && (g = 'g' || g = 'G')
  | _ => false

/-- Glob match for star-dot-[pP][nN][gG]. -/
def isPngName (name : String) : Bool :=
  match name.data.reverse with
  | g :: n :: p :: dot :: _ =>
    dot = '.' && (p = 'p' || p = 'P') && (n = 'n' || n = 'N') && (g = 'g' || g = 'G')
  | _ => false

/-- Glob match for star-dot-[mM][pP]4. -/
def isMp4Name (name : String) : Bool :=
  match name.data.reverse with
  | four :: p :: m :: dot :: _ =>
    dot = '.' && (m = 'm' || m = 'M') && (p = 'p' || p = 'P') && four = '4'
  | _ => false

/-- Glob match for star-dot-[mM][oO4][vV], with the source's odd middle
class accepting o, O or 4. -/
def isMovName (name : String) : Bool :=
  match name.data.reverse with
  | v :: o :: m :: dot :: _ =>
    dot = '.' && (m = 'm' || m = 'M') && (o = 'o' || o = 'O' || o = '4') &&
      (v = 'v' || v = 'V')
  | _ => false

/-- Glob match for star-dot-3[gG][pP]. -/
def is3gpName (name : String) : Bool :=
  match name.data.reverse with
  | p :: g :: three :: dot :: _ =>
    dot = '.' && three = '3' && (g = 'g' || g = 'G') && (p = 'p' || p = 'P')
  | _ => false

def isMovieName (name : String) : Bool :=
  isMp4Name name || isMovName name || is3gpName name

/-- Zero padding of a decimal number to a minimum width, as both Go's
fmt %0Nd verb and the zero-padding layout fields of time.Format produce. -/
def zeroPadGo (w n : Nat) : String :=
  ⟨List.replicate (w - (Nat.repr n).data.length) '0'⟩ ++ Nat.repr n

/-- time.Format with layout 20060102_150405 applied to a GoTime. -/
def goTimeFormatStamp (t : GoTime) : String :=
  zeroPadGo 4 t.year ++ zeroPadGo 2 t.month ++ zeroPadGo 2 t.day ++ "_" ++
    zeroPadGo 2 t.hour ++ zeroPadGo 2 t.minute ++ zeroPadGo 2 t.second

/-- The timestamp base name built at main.go lines 280-281: the formatted
timestamp followed by an underscore and the %03d-printed millisecond count
(nanoseconds divided by one million). -/
def timestampBaseName (t : GoTime) : String :=
  goTimeFormatStamp t ++ "_" ++ zeroPadGo 3 (t.nanosecond / 1000000)

/-- Zero padding to a minimum width, written from the specification's
wording; compared against the code's zeroPadGo. -/
def zeroPadSpec (w n : Nat) : String :=
  ⟨List.replicate (w - (Nat.repr n).data.length) '0'⟩ ++ Nat.repr n

/-- The destination base name as the specification's formula states it:
strftime
with pattern percent-Y percent-m percent-d underscore percent-H percent-M
percent-S, then an underscore and the zero-padded 3-digit millisecond
component. -/
def specTimestampBaseName (t : GoTime) : String :=
  (zeroPadSpec 4 t.year ++ zeroPadSpec 2 t.month ++ zeroPadSpec 2 t.day ++ "_" ++
    zeroPadSpec 2 t.hour ++ zeroPadSpec 2 t.minute ++ zeroPadSpec 2 t.second) ++
    "_" ++ zeroPadSpec 3 (t.nanosecond / 1000000)

/-- An EXIF tag value: TagValue returns an interface value, and the source
asserts it to string, which panics on any other dynamic type. -/
inductive ExifValue where
  | str (s : String)
  | nonString
deriving DecidableEq

/-- The string type assertion dot-parenthesis-string of the source. -/
def assertString : ExifValue → Outcome String
  | .str s => .ok s
  | .nonString => .fault

/-- Outcomes of the external calls made by extractDateTimeOriginal, in the
order the source performs them.  The parse field is time.Parse with layout
2006:01:02 15:04:05.999 applied to the composed string. -/
structure ExifEnv where
  searchExif : Outcome Unit
  loadStandardIfds : Outcome Unit
  collect : Outcome Unit
  childWithIfdPath : Outcome Unit
  findDateTimeOriginalCount : Nat
  dateTimeOriginalValue : Outcome ExifValue
  findSubSecTimeOriginalCount : Nat
  subSecTimeOriginalValue : Outcome ExifValue
  timeParse : String → Outcome GoTime

/-- The shared body of extractDateTimeOriginal (part_000 lines 19-71 and
main.go lines 34-84): each failing call returns its error, the missing
DateTimeOriginal tag returns the sentinel, a missing SubSecTimeOriginal
tag defaults to the string 000, and the two values are composed with a dot
and parsed. -/
def extractCore (env : ExifEnv) : Outcome GoTime :=
  env.searchExif.bind fun _ =>
  env.loadStandardIfds.bind fun _ =>
  env.collect.bind fun _ =>
  env.childWithIfdPath.bind fun _ =>
  if env.findDateTimeOriginalCount = 0 then .err .noDateTimeOriginal
  else
    env.dateTimeOriginalValue.bind fun dtv =>
    (if env.findSubSecTimeOriginalCount = 1 then env.subSecTimeOriginalValue
     else .ok (.str "000")).bind fun ssv =>
    (assertString dtv).bind fun ds =>
    (assertString ssv).bind fun ss =>
    env.timeParse (ds ++ "." ++ ss)

/-- extractDateTimeOriginal of the positional-arguments variant
(part_000 lines 19-71): no extension filter and no recover, so a fault
propagates out of the function. -/
def extractDateTimeOriginalArgs (env : ExifEnv) : Outcome GoTime :=
  extractCore env

/-- The deferred recover of main.go lines 22-26: any panic inside the
function body is converted into the sentinel error. -/
def recoverToNoDateTime : Outcome GoTime → Outcome GoTime
  | .fault => .err .noDateTimeOriginal
  | r => r

/-- extractDateTimeOriginal of the scanning variant (main.go lines 21-85):
the lower-cased extension must be .jpg or .jpeg, the shared body runs, and
the deferred recover traps any fault. -/
def extractDateTimeOriginalScan (path : String) (env : ExifEnv) : Outcome GoTime :=
  recoverToNoDateTime
    (let ext := toLowerStr (goFilepathExt path)
     if ext ≠ ".jpg" ∧ ext ≠ ".jpeg" then .err .noDateTimeOriginal
     else extractCore env)

/-- What the per-source timestamp step decides: a resolved timestamp, a
reported skip of the file, or an unrecovered panic crashing the run. -/
inductive Resolution where
  | resolved (t : GoTime)
  | skip
  | crash
deriving DecidableEq

/-- main.go lines 265-277: extract the timestamp; on error fall back to
the file modification time only when the modtime flag is set and the error
is (by Go error identity) the sentinel, otherwise report and skip. -/
def resolveForSource (useModTime : Bool) (modTime : GoTime) (path : String)
    (env : ExifEnv) : Resolution :=
  match extractDateTimeOriginalScan path env with
  | .ok t => .resolved t
  | .err e =>
    if useModTime ∧ e = GoError.noDateTimeOriginal then .resolved modTime else .skip
  | .fault => .crash

/-- The two timestamp-dependent values of the per-source loop body: the
base name used for destinations, and the time later handed to os.Chtimes
in the copy branch (main.go line 396). -/
structure JpegNaming where
  timestampFilename : String
  chtimesModTime : GoTime
deriving DecidableEq

/-- main.go lines 260-282 together with line 396 for a source whose IsJpeg
flag is set.  Line 261 declares the outer dateTime variable with Go's zero
value; line 268 uses a short declaration inside the if block, which in Go
introduces a new inner variable rather than assigning the outer one, so
the timestamp filename is built from the inner (resolved) value while the
later Chtimes call still reads the outer zero value. -/
def processJpegSource (useModTime : Bool) (modTime : GoTime) (path : String)
    (env : ExifEnv) : Option JpegNaming :=
  let dateTime := goZeroTime
  match resolveForSource useModTime modTime path env with
  | .resolved t => some ⟨timestampBaseName t, dateTime⟩
  | _ => none

/-- The command-line flags of the scanning variant. -/
structure Flags where
  doRelated : Bool := false
  useModTime : Bool := false
  doCopy : Bool := false
  doMove : Bool := false
  doSymlink : Bool := false
  doHardlink : Bool := false
  doOverwrite : Bool := false
  useSuffixes : Bool := false
  doRecurse : Bool := false
deriving DecidableEq

/-- main.go lines 130-135: copy beats move, symlink beats hardlink. -/
def normalizeFlags (f : Flags) : Flags :=
  let f1 := if f.doCopy && f.doMove then { f with doMove := false } else f
  if f1.doSymlink && f1.doHardlink then { f1 with doHardlink := false } else f1

def anyAction (f : Flags) : Bool :=
  f.doCopy || f.doMove || f.doSymlink || f.doHardlink

/-- Filesystem-mutating steps of the per-name loop body, in program
order. -/
inductive PEvent where
  | mkdirAll
  | removeDest
  | copyFile
  | chtimesCall
  | renameFile
  | symlinkFile
  | hardlinkFile
  | reportOnly
deriving DecidableEq

/-- main.go lines 322-344: when any real action is selected, the parent
directory is created and then, when the overwrite flag is set, the
pre-existing destination is removed. -/
def prepEvents (f : Flags) : List PEvent :=
  if anyAction f then
    [PEvent.mkdirAll] ++ (if f.doOverwrite then [PEvent.removeDest] else [])
  else []

/-- main.go lines 346-424: the selected action, with the copy branch also
calling Chtimes for an image source. -/
def actionEvents (f : Flags) (isJpeg : Bool) : List PEvent :=
  if f.doCopy then [PEvent.copyFile] ++ (if isJpeg then [PEvent.chtimesCall] else [])
  else if f.doMove then [PEvent.renameFile]
  else if f.doSymlink then [PEvent.symlinkFile]
  else if f.doHardlink then [PEvent.hardlinkFile]
  else [PEvent.reportOnly]

/-- The ordered filesystem events of one per-name loop iteration. -/
def placementEvents (f : Flags) (isJpeg : Bool) : List PEvent :=
  prepEvents f ++ actionEvents f isJpeg

/-- The probed destination for a counter value, main.go lines 309-310:
Sprintf of base, underscore, counter, extension, joined under the target
folder and source-relative directory. -/
def suffixPath (targetFolder dir destFilename destExt : String) (counter : Nat) : String :=
  joinPath (joinPath targetFolder dir) (destFilename ++ "_" ++ Nat.repr counter ++ destExt)

/-- The unbounded probe loop of main.go lines 308-314, bounded here by a
fuel argument: any fuel at least the first free counter gives the loop's
result.  The existence test is the external PathExists call. -/
def probeLoop (ex : String → Bool) (targetFolder dir destFilename destExt : String) :
    Nat → Nat → Option String
  | _, 0 => none
  | counter, fuel + 1 =>
    let destPath := suffixPath targetFolder dir destFilename destExt counter
    if ex destPath then probeLoop ex targetFolder dir destFilename destExt (counter + 1) fuel
    else some destPath

/-- main.go lines 299-320: the destination path decision.  none models the
continue that skips the file on an unresolvable collision. -/
def computeDestPath (ex : String → Bool) (doOverwrite useSuffixes : Bool)
    (targetFolder dir destFilename destExt : String) (fuel : Nat) : Option String :=
  let destPath := joinPath (joinPath targetFolder dir) (destFilename ++ destExt)
  if !doOverwrite then
    if ex destPath then
      if useSuffixes then probeLoop ex targetFolder dir destFilename destExt 1 fuel
      else none
    else some destPath
  else some destPath

/-- A filesystem tree for the walk: a directory carries whether listing it
succeeds. -/
inductive FSNode where
  | file (name : String)
  | dir (name : String) (readable : Bool) (children : List FSNode)

def FSNode.nodeName : FSNode → String
  | .file n => n
  | .dir n _ _ => n

def FSNode.isDirNode : FSNode → Bool
  | .file _ => false
  | .dir _ _ _ => true

/-- What the walk callback returns: nil, filepath.SkipDir, or an error. -/
inductive WalkSignal where
  | next
  | skipDirSig
  | failSig (e : GoError)
deriving DecidableEq

/-- A walk invocation's propagated result. -/
inductive WalkRes where
  | ok
  | skipDir
  | fail (e : GoError)
deriving DecidableEq

def sigRes : WalkSignal → WalkRes
  | .next => .ok
  | .skipDirSig => .skipDir
  | .failSig e => .fail e

/-- One discovered image source of the scanning variant (the walker's
fields of the Source struct). -/
structure Src where
  path : String
  dir : String
  filename : String
deriving DecidableEq

/-- The mutable state the walk callback builds: the image sources in
discovery order and the per-directory pool of other filenames. -/
structure ScanState where
  sources : List Src
  dirFiles : List (String × List String)
deriving DecidableEq

def mapGet (m : List (String × List String)) (d : String) : List String :=
  match m with
  | [] => []
  | p :: rest => if p.1 = d then p.2 else mapGet rest d

def mapSet (m : List (String × List String)) (d : String) (v : List String) :
    List (String × List String) :=
  match m with
  | [] => [(d, v)]
  | p :: rest => if p.1 = d then (d, v) :: rest else p :: mapSet rest d v

/-- The walk callback of main.go lines 154-203: an incoming error is
printed and returned; a directory continues in recursive mode and returns
SkipDir otherwise; a file is split, its directory stripped of the base
path, and classified as an image source or appended to its directory's
pool. -/
def walkCallback (doRecurse : Bool) (basePath : String) (st : ScanState)
    (path : String) (isDir : Bool) (errIn : Option GoError) : ScanState × WalkSignal :=
  match errIn with
  | some e => (st, .failSig e)
  | none =>
    if isDir then (st, if doRecurse then .next else .skipDirSig)
    else
      let dir0 := (filepathSplit path).1
      let filename := (filepathSplit path).2
      let dir :=
        if strStartsWith dir0 basePath then ⟨dir0.data.drop (basePath.data.length + 1)⟩
        else dir0
      if isJpgName filename || isJpegName filename || isPngName filename then
        ({ st with sources := st.sources ++ [⟨path, dir, filename⟩] }, .next)
      else
        ({ st with
            dirFiles := mapSet st.dirFiles dir (mapGet st.dirFiles dir ++ [filename]) },
          .next)

mutual

/-- filepath.walk from the Go standard library, specialised to the
source's callback: a file is handed to the callback; a directory is
listed (a failed listing hands the callback the error, whose return value
is propagated), handed to the callback, and its children walked. -/
def walkNode (doRecurse : Bool) (basePath : String) (node : FSNode) (path : String)
    (st : ScanState) : ScanState × WalkRes :=
  match node with
  | .file _ =>
    let r := walkCallback doRecurse basePath st path false none
    (r.1, sigRes r.2)
  | .dir _ readable children =>
    let rerr : Option GoError :=
      if readable then none else some (GoError.other "permission denied")
    let r := walkCallback doRecurse basePath st path true rerr
    match rerr with
    | some _ => (r.1, sigRes r.2)
    | none =>
      match r.2 with
      | .skipDirSig => (r.1, .skipDir)
      | .failSig e => (r.1, .fail e)
      | .next => walkList doRecurse basePath children path r.1

/-- The loop over a directory's entries: a child's SkipDir result is
swallowed when the child is a directory, ends the listing when it is a
file, and any other error is returned. -/
def walkList (doRecurse : Bool) (basePath : String) (l : List FSNode) (dirPath : String)
    (st : ScanState) : ScanState × WalkRes :=
  match l with
  | [] => (st, .ok)
  | c :: rest =>
    let r := walkNode doRecurse basePath c (joinPath dirPath c.nodeName) st
    match r.2 with
    | .ok => walkList doRecurse basePath rest dirPath r.1
    | .skipDir =>
      if c.isDirNode then walkList doRecurse basePath rest dirPath r.1
      else (r.1, .skipDir)
    | .fail e => (r.1, .fail e)

end

/-- filepath.Walk: run the walk from the root and convert a top-level
SkipDir into success. -/
def filepathWalk (doRecurse : Bool) (basePath root : String) (tree : FSNode) :
    ScanState × Option GoError :=
  match walkNode doRecurse basePath tree root ⟨[], []⟩ with
  | (st, .ok) => (st, none)
  | (st, .skipDir) => (st, none)
  | (st, .fail e) => (st, some e)

/-- How the scanning variant's run ends: main.go lines 204-206 panic when
the walk returns an error. -/
inductive RunOutcome where
  | completed (st : ScanState)
  | panicked (e : GoError) (st : ScanState)
deriving DecidableEq

def runScan (tree : FSNode) (sourceFolder basePath : String) (doRecurse : Bool) :
    RunOutcome :=
  match filepathWalk doRecurse basePath sourceFolder tree with
  | (st, none) => .completed st
  | (st, some e) => .panicked e st

/-- The fields of an image source the grouping loop reads. -/
structure GroupSource where
  dir : String
  filename : String
deriving DecidableEq

/-- A source together with its RelatedFilenames list (primary first). -/
structure SGroup where
  dir : String
  names : List String
deriving DecidableEq

/-- The scan of main.go lines 216-221 over one directory pool, carrying
the running index: matched filenames in pool order paired with their
indices (ascending). -/
def scanPool (stem : String) : List String → Nat → List String × List Nat
  | [], _ => ([], [])
  | f :: fs, i =>
    let r := scanPool stem fs (i + 1)
    if strStartsWith f stem then (f :: r.1, i :: r.2) else r

/-- The removal loop of main.go lines 226-234: walk the pool with a second
cursor over the ascending index list, skipping matched positions. -/
def removeItemsGo : List String → List Nat → Nat → List String
  | [], _, _ => []
  | x :: xs, [], i => x :: removeItemsGo xs [] (i + 1)
  | x :: xs, j :: js, i =>
    if i = j then removeItemsGo xs js (i + 1)
    else x :: removeItemsGo xs (j :: js) (i + 1)

def removeItems (b : List String) (toRemove : List Nat) : List String :=
  removeItemsGo b toRemove 0

/-- One iteration of the grouping loop of main.go lines 209-243 with the
related flag set: the source claims the pool entries of its directory
whose name starts with the source's stem, and the claimed entries are
removed from the pool (the write-back is guarded by a non-empty removal
list, mirroring the source's guarded reassignment). -/
def groupStep (s : GroupSource) (m : List (String × List String)) :
    SGroup × List (String × List String) :=
  let pool := mapGet m s.dir
  let sc := scanPool (NoExt s.filename) pool 0
  (⟨s.dir, s.filename :: sc.1⟩,
    if sc.2 = [] then m else mapSet m s.dir (removeItems pool sc.2))

/-- The grouping loop of main.go lines 209-243 over the image sources;
without the related flag every source keeps only its own name. -/
def groupSources (doRelated : Bool) :
    List GroupSource → List (String × List String) →
      List SGroup × List (String × List String)
  | [], m => ([], m)
  | s :: rest, m =>
    if doRelated then
      let p := groupStep s m
      let r := groupSources doRelated rest p.2
      (p.1 :: r.1, r.2)
    else
      let r := groupSources doRelated rest m
      (⟨s.dir, [s.filename]⟩ :: r.1, r.2)

/-- The movie pass of main.go lines 246-258: every pool entry left after
grouping whose name matches a movie pattern becomes its own source whose
RelatedFilenames list holds just itself. -/
def movieGroups (m : List (String × List String)) : List SGroup :=
  match m with
  | [] => []
  | p :: rest =>
    (p.2.filter isMovieName).map (fun f => ⟨p.1, [f]⟩) ++ movieGroups rest

/-- All SourceGroups a related-files run produces: the image groups in
source order followed by the movie singletons. -/
def runGroups (sources : List GroupSource) (m0 : List (String × List String)) :
    List SGroup :=
  (groupSources true sources m0).1 ++ movieGroups (groupSources true sources m0).2

/-- Occurrences of a filename in a list. -/
def cnt (n : String) : List String → Nat
  | [] => 0
  | x :: xs => (if x = n then 1 else 0) + cnt n xs

/-- Occurrences of a filename across every pool entry of a directory. -/
def poolCount (n d : String) (m : List (String × List String)) : Nat :=
  match m with
  | [] => 0
  | p :: rest => (if p.1 = d then cnt n p.2 else 0) + poolCount n d rest

/-- Occurrences of a filename among the non-primary related names of the
groups of a directory. -/
def tailCount (n d : String) (gs : List SGroup) : Nat :=
  match gs with
  | [] => 0
  | g :: rest => (if g.dir = d then cnt n (g.names.drop 1) else 0) + tailCount n d rest

/-- Whether a group of the given directory lists the given filename. -/
def hitsName (d n : String) (g : SGroup) : Bool :=
  decide (g.dir = d) && decide (n ∈ g.names)

/-- How the positional-arguments variant's main ends: usage plus a
non-zero exit, or a run over the processed paths in order. -/
inductive ArgsRun where
  | usageExit (code : Int)
  | run (processed : List String)
deriving DecidableEq

/-- part_000 lines 90-100: with at most one positional argument print
usage and exit with status -1; otherwise iterate over the arguments from
the second one on. -/
def part000Main (args : List String) : ArgsRun :=
  if args.length ≤ 1 then .usageExit (-1)
  else .run (args.drop 1)

/-! Concrete inputs used by the theorems below. -/

/-- A capture timestamp 2023-05-01 10:20:30.500. -/
def t0 : GoTime := ⟨2023, 5, 1, 10, 20, 30, 500000000⟩

/-- A file modification time 2020-01-02 03:04:05. -/
def mt0 : GoTime := ⟨2020, 1, 2, 3, 4, 5, 0⟩

/-- An EXIF environment where extraction fully succeeds with t0. -/
def envOk : ExifEnv :=
  { searchExif := .ok ()
    loadStandardIfds := .ok ()
    collect := .ok ()
    childWithIfdPath := .ok ()
    findDateTimeOriginalCount := 1
    dateTimeOriginalValue := .ok (.str "2023:05:01 10:20:30")
    findSubSecTimeOriginalCount := 1
    subSecTimeOriginalValue := .ok (.str "500")
    timeParse := fun s =>
      if s = "2023:05:01 10:20:30.500" then .ok t0 else .err (.other "parse error") }

/-- An EXIF environment where SearchFileAndExtractExif returns an error: a
malformed container with no usable EXIF block. -/
def envSearchErr : ExifEnv :=
  { envOk with searchExif := .err (.other "no exif data") }

/-- An EXIF environment where the DateTimeOriginal tag is missing, making
extraction fail with the sentinel error. -/
def envNoTag : ExifEnv :=
  { envOk with findDateTimeOriginalCount := 0 }

/-- An EXIF environment where the EXIF search panics on corrupt data. -/
def envFault : ExifEnv :=
  { envOk with searchExif := .fault }

/-- A scan root holding one image file and one other file as its direct
children. -/
def tree3 : FSNode := .dir "photos" true [.file "a.jpg", .file "b.txt"]

/-- A scan root with an unreadable subdirectory followed by a readable
sibling holding an image. -/
def tree2 : FSNode :=
  .dir "root" true [.dir "bad" false [], .dir "good" true [.file "x.jpg"]]

/-- The same tree with the first subdirectory readable. -/
def tree2ok : FSNode :=
  .dir "root" true [.dir "bad" true [], .dir "good" true [.file "x.jpg"]]

/-- One image source in the root directory. -/
def sources7 : List GroupSource := [⟨"", "IMG001.jpg"⟩]

/-- A pool holding one sidecar file sharing the image's stem. -/
def m7 : List (String × List String) := [("", ["IMG001.cr2"])]

/-- Existing destination paths for the suffix-probe witness: the plain
name and its first suffixed variant. -/
def ex8 : String → Bool := fun p =>
  p = "t/d/20230501_102030_500.jpg" || p = "t/d/20230501_102030_500_1.jpg"

/-! Theorems. -/

/-- The code's zero padding and the specification's zero padding agree. -/
theorem zeroPad_agree (w m : Nat) : zeroPadGo w m = zeroPadSpec w m := rfl

/-- The code's timestamp base name coincides with the specification's
formula for it. -/
theorem timestampBaseName_eq_spec (t : GoTime) :
    timestampBaseName t = specTimestampBaseName t := rfl

/-- A recovered extraction result is never a fault. -/
theorem recoverToNoDateTime_not_fault (r : Outcome GoTime) :
    (recoverToNoDateTime r).isFault = false := by
  cases r <;> rfl

/-- C9 (amended part): in the scanning variant every runtime fault inside
timestamp extraction is trapped by the deferred recover, so the resolver
never lets a fault escape. -/
theorem scan_extract_never_faults (path : String) (env : ExifEnv) :
    (extractDateTimeOriginalScan path env).isFault = false := by
  unfold extractDateTimeOriginalScan
  exact recoverToNoDateTime_not_fault _

/-- C9 (counterexample): in the positional-arguments variant a runtime
fault raised while searching corrupt data escapes the resolver unconverted
-- it is not the MetadataUnavailable sentinel. -/
theorem args_extract_fault_escapes :
    extractDateTimeOriginalArgs envFault = Outcome.fault ∧
      Outcome.fault ≠ Outcome.err (α := GoTime) GoError.noDateTimeOriginal := by
  exact ⟨rfl, by decide⟩

/-- C4 (counterexample): with the modtime option enabled, a failure of the
EXIF search (malformed container) does not fall back to the modification
time: the file is skipped. -/
theorem modtime_fallback_skips_search_error :
    resolveForSource true mt0 "/p/b.jpg" envSearchErr = Resolution.skip ∧
      resolveForSource true mt0 "/p/b.jpg" envSearchErr ≠ Resolution.resolved mt0 := by
  exact ⟨by decide, by decide⟩

/-- C4 (amended): with the modtime option enabled, an extraction error
falls back to the modification time exactly when it is the sentinel
errNoDateTimeOriginal; any other extraction error skips the file. -/
theorem modtime_fallback_sentinel_only (mt : GoTime) (path : String)
    (env : ExifEnv) (e : GoError)
    (hx : extractDateTimeOriginalScan path env = .err e) :
    resolveForSource true mt path env =
      (if e = GoError.noDateTimeOriginal then Resolution.resolved mt
       else Resolution.skip) := by
  unfold resolveForSource
  rw [hx]
  rcases e with _ | msg <;> simp

theorem modtime_fallback_sentinel_only_witness :
    resolveForSource true mt0 "/p/c.jpg" envNoTag = Resolution.resolved mt0 := by
  have h := modtime_fallback_sentinel_only mt0 "/p/c.jpg" envNoTag
    GoError.noDateTimeOriginal (by decide)
  simpa using h

/-- C1: for a source whose timestamp resolves to t0, the copy branch hands
os.Chtimes the zero time, not the resolved timestamp, because the short
declaration at main.go line 268 shadows the outer dateTime variable. -/
theorem copy_chtimes_receives_zero_time :
    resolveForSource false mt0 "/p/IMG_0001.jpg" envOk = Resolution.resolved t0 ∧
      processJpegSource false mt0 "/p/IMG_0001.jpg" envOk =
        some ⟨"20230501_102030_500", goZeroTime⟩ ∧
      goZeroTime ≠ t0 := by
  exact ⟨by decide, by decide, by decide⟩

/-- C6: whenever the timestamp of an image source resolves, the
destination base name the code builds equals the specification's formula
applied to the resolved timestamp. -/
theorem dest_basename_matches_spec_format (u : Bool) (mt : GoTime)
    (path : String) (env : ExifEnv) (t : GoTime) (r : JpegNaming)
    (hres : resolveForSource u mt path env = Resolution.resolved t)
    (hr : processJpegSource u mt path env = some r) :
    r.timestampFilename = specTimestampBaseName t := by
  unfold processJpegSource at hr
  rw [hres] at hr
  simp only [Option.some.injEq] at hr
  rw [← hr]
  exact timestampBaseName_eq_spec t

theorem dest_basename_matches_spec_format_witness :
    (JpegNaming.mk "20230501_102030_500" goZeroTime).timestampFilename =
      specTimestampBaseName t0 :=
  dest_basename_matches_spec_format false mt0 "/p/IMG_0001.jpg" envOk t0
    ⟨"20230501_102030_500", goZeroTime⟩ (by decide) (by decide)

/-- C3: with the recurse flag off, scanning a directory root discovers
nothing at all -- the callback answers SkipDir on the root itself, so even
its direct children are pruned -- while the same tree scanned recursively
does yield the root's children. -/
theorem nonrecursive_root_yields_no_files :
    runScan tree3 "photos" "photos" false = RunOutcome.completed ⟨[], []⟩ ∧
      runScan tree3 "photos" "photos" true =
        RunOutcome.completed ⟨[⟨"photos/a.jpg", "", "a.jpg"⟩], [("", ["b.txt"])]⟩ :=
  ⟨rfl, rfl⟩

/-- C2 (counterexample): an unreadable directory makes the walk callback
return the error, which aborts the entire walk and panics the run before
the readable sibling is visited; the same tree with the directory readable
completes and discovers the sibling's image. -/
theorem walk_error_aborts_entire_run :
    runScan tree2 "root" "root" true =
      RunOutcome.panicked (GoError.other "permission denied") ⟨[], []⟩ ∧
      runScan tree2ok "root" "root" true =
        RunOutcome.completed ⟨[⟨"root/good/x.jpg", "good/", "x.jpg"⟩], []⟩ :=
  ⟨rfl, rfl⟩

/-- C10: the positional-arguments variant prints usage and exits non-zero
on fewer than two positional arguments, and otherwise iterates exactly
over the arguments from the second one on. -/
theorem args_variant_processes_tail_only (args : List String) :
    (args.length ≤ 1 → ∃ c, part000Main args = ArgsRun.usageExit c ∧ c ≠ 0) ∧
      (∀ a rest, args = a :: rest → rest ≠ [] →
        part000Main args = ArgsRun.run rest) := by
  constructor
  · intro h
    exact ⟨-1, by simp [part000Main, h], by decide⟩
  · intro a rest hargs hne
    subst hargs
    have hlen : ¬ (a :: rest).length ≤ 1 := by
      cases rest with
      | nil => exact absurd rfl hne
      | cons b bs => simp [List.length]
    simp [part000Main, hlen]
    exact hne

theorem args_variant_processes_tail_only_witness :
    part000Main ["first", "a.jpg", "b.jpg"] = ArgsRun.run ["a.jpg", "b.jpg"] ∧
      ∃ c, part000Main ["only"] = ArgsRun.usageExit c ∧ c ≠ 0 :=
  ⟨(args_variant_processes_tail_only ["first", "a.jpg", "b.jpg"]).2
      "first" ["a.jpg", "b.jpg"] rfl (by decide),
    (args_variant_processes_tail_only ["only"]).1 (by decide)⟩

/-- C5 (counterexample): with the overwrite flag and a plain move, the
pre-existing destination is removed (the removal step precedes the rename
in the event order), contradicting the claim that move is exempt. -/
theorem overwrite_remove_precedes_move :
    placementEvents (normalizeFlags { doMove := true, doOverwrite := true }) false =
      [PEvent.mkdirAll, PEvent.removeDest, PEvent.renameFile] := by decide

/-- No action branch itself removes the destination. -/
theorem removeDest_not_in_actionEvents (f : Flags) (b : Bool) :
    PEvent.removeDest ∉ actionEvents f b := by
  cases hc : f.doCopy <;> cases hm : f.doMove <;> cases hs : f.doSymlink <;>
    cases hh : f.doHardlink <;> cases b <;>
    simp [actionEvents, hc, hm, hs, hh]

/-- C5 (amended): when the overwrite flag is set and any of the four
mutating actions is selected, the events are directory creation, then
removal of the pre-existing destination, then the action -- for copy,
symlink, hardlink and also for a plain move. -/
theorem overwrite_remove_precedes_every_action (f : Flags) (b : Bool)
    (hAct : anyAction f = true) (hOw : f.doOverwrite = true) :
    placementEvents f b = [PEvent.mkdirAll, PEvent.removeDest] ++ actionEvents f b ∧
      PEvent.removeDest ∉ actionEvents f b := by
  refine ⟨?_, removeDest_not_in_actionEvents f b⟩
  simp [placementEvents, prepEvents, hAct, hOw]

theorem overwrite_remove_precedes_every_action_witness :
    placementEvents ({ doCopy := true, doOverwrite := true } : Flags) true =
      [PEvent.mkdirAll, PEvent.removeDest] ++
        actionEvents ({ doCopy := true, doOverwrite := true } : Flags) true ∧
      PEvent.removeDest ∉
        actionEvents ({ doCopy := true, doOverwrite := true } : Flags) true :=
  overwrite_remove_precedes_every_action _ true (by decide) (by decide)

/-- Starting from counter c, the probe loop lands on the first free
counter k at or beyond c, given fuel to reach it. -/
theorem probeLoop_first_gap (ex : String → Bool) (tf dir base ext : String)
    (k : Nat) : ∀ c fuel, c ≤ k → k < c + fuel →
    (∀ j, c ≤ j → j < k → ex (suffixPath tf dir base ext j) = true) →
    ex (suffixPath tf dir base ext k) = false →
    probeLoop ex tf dir base ext c fuel = some (suffixPath tf dir base ext k) := by
  intro c fuel
  induction fuel generalizing c with
  | zero => intro h1 h2 _ _; omega
  | succ m ih =>
    intro hck hlt hbusy hfree
    rcases Nat.eq_or_lt_of_le hck with heq | hlt2
    · subst heq
      simp [probeLoop, hfree]
    · have hbc : ex (suffixPath tf dir base ext c) = true := hbusy c le_rfl hlt2
      simp only [probeLoop, hbc, if_true]
      exact ih (c + 1) hlt2 (by omega) (fun j hj hjk => hbusy j (by omega) hjk) hfree

/-- C8: without overwrite, with suffixes enabled and the plain destination
occupied, the suffixed destinations are probed in increasing order from 1
and the first free one is chosen. -/
theorem suffix_probe_selects_first_gap (ex : String → Bool)
    (tf dir base ext : String) (k fuel : Nat)
    (hk : 1 ≤ k) (hfuel : k ≤ fuel)
    (hbase : ex (joinPath (joinPath tf dir) (base ++ ext)) = true)
    (hbusy : ∀ j, 1 ≤ j → j < k → ex (suffixPath tf dir base ext j) = true)
    (hfree : ex (suffixPath tf dir base ext k) = false) :
    computeDestPath ex false true tf dir base ext fuel =
      some (suffixPath tf dir base ext k) := by
  simp only [computeDestPath, Bool.not_false, if_true, hbase]
  exact probeLoop_first_gap ex tf dir base ext k 1 fuel hk (by omega) hbusy hfree

/-- With t/d/20230501_102030_500.jpg and its _1 variant existing, the next
placement lands at the _2 variant. -/
theorem suffix_probe_selects_first_gap_witness :
    computeDestPath ex8 false true "t" "d" "20230501_102030_500" ".jpg" 5 =
      some (suffixPath "t" "d" "20230501_102030_500" ".jpg" 2) :=
  suffix_probe_selects_first_gap ex8 "t" "d" "20230501_102030_500" ".jpg" 2 5
    (by decide) (by decide) (by decide)
    (by
      intro j h1 h2
      have hj : j = 1 := by omega
      subst hj
      decide)
    (by decide)

/-- The matched names of a pool scan are exactly the pool entries whose
name starts with the stem, in pool order. -/
theorem scanPool_fst (stem : String) : ∀ (fs : List String) (i : Nat),
    (scanPool stem fs i).1 = fs.filter (fun f => strStartsWith f stem) := by
  intro fs
  induction fs with
  | nil => intro i; rfl
  | cons f fs ih =>
    intro i
    cases h : strStartsWith f stem <;>
      simp [scanPool, h, ih, List.filter_cons]

/-- Indices collected by the scan are at least the starting index. -/
theorem scanPool_snd_ge (stem : String) : ∀ (fs : List String) (i : Nat),
    ∀ j ∈ (scanPool stem fs i).2, i ≤ j := by
  intro fs
  induction fs with
  | nil => intro i j hj; simp [scanPool] at hj
  | cons f fs ih =>
    intro i j hj
    cases h : strStartsWith f stem <;> rw [scanPool] at hj <;> simp [h] at hj
    · have := ih (i + 1) j hj
      omega
    · rcases hj with heq | hm
      · omega
      · have := ih (i + 1) j hm
        omega

/-- The scan collects one index per matched name. -/
theorem scanPool_len (stem : String) : ∀ (fs : List String) (i : Nat),
    (scanPool stem fs i).1.length = (scanPool stem fs i).2.length := by
  intro fs
  induction fs with
  | nil => intro i; rfl
  | cons f fs ih => intro i; cases h : strStartsWith f stem <;> simp [scanPool, h, ih]

/-- Removing the scanned indices from the pool leaves exactly the entries
whose name does not start with the stem. -/
theorem removeItemsGo_scanPool (stem : String) : ∀ (fs : List String) (i : Nat),
    removeItemsGo fs (scanPool stem fs i).2 i =
      fs.filter (fun f => !(strStartsWith f stem)) := by
  intro fs
  induction fs with
  | nil => intro i; rfl
  | cons f fs ih =>
    intro i
    cases h : strStartsWith f stem
    · cases hrs : (scanPool stem fs (i + 1)).2 with
      | nil =>
        have hrec := ih (i + 1)
        rw [hrs] at hrec
        simp [scanPool, h, hrs, removeItemsGo, List.filter_cons, hrec]
      | cons j js =>
        have hij : i + 1 ≤ j := by
          refine scanPool_snd_ge stem fs (i + 1) j ?_
          rw [hrs]
          exact List.mem_cons_self _ _
        have hne : ¬ (i = j) := by omega
        have hrec := ih (i + 1)
        rw [hrs] at hrec
        simp [scanPool, h, hrs, removeItemsGo, hne, List.filter_cons, hrec]
    · simp [scanPool, h, removeItemsGo, List.filter_cons, ih (i + 1)]

/-- Counting splits over a filter partition. -/
theorem cnt_filter_partition (n : String) (p : String → Bool) :
    ∀ l : List String,
      cnt n (l.filter p) + cnt n (l.filter (fun f => !(p f))) = cnt n l := by
  intro l
  induction l with
  | nil => rfl
  | cons x xs ih =>
    by_cases hx : x = n
    · subst hx
      cases h : p x <;> simp [List.filter_cons, h, cnt] <;> omega
    · cases h : p x <;> simp [List.filter_cons, h, cnt, hx] <;> omega

/-- A member is counted at least once. -/
theorem cnt_pos_of_mem (n : String) : ∀ l : List String, n ∈ l → 1 ≤ cnt n l := by
  intro l
  induction l with
  | nil => intro h; cases h
  | cons x xs ih =>
    intro h
    rcases List.mem_cons.mp h with heq | hm
    · subst heq
      simp [cnt]
    · have := ih hm
      simp [cnt]
      omega

/-- Setting one directory's pool leaves another directory's count
unchanged. -/
theorem poolCount_mapSet_other (n d d' : String) (v : List String)
    (hne : d' ≠ d) : ∀ m, poolCount n d (mapSet m d' v) = poolCount n d m := by
  intro m
  induction m with
  | nil => simp [mapSet, poolCount, hne]
  | cons p rest ih =>
    by_cases h : p.1 = d'
    · have hpd : ¬ (p.1 = d) := by rw [h]; exact hne
      simp [mapSet, h, poolCount, hne, hpd]
    · simp [mapSet, h, poolCount, ih]

/-- Setting a directory's pool trades the old first-entry count for the
new value's count. -/
theorem poolCount_mapSet_same (n d : String) (v : List String) :
    ∀ m, poolCount n d (mapSet m d v) + cnt n (mapGet m d) =
      cnt n v + poolCount n d m := by
  intro m
  induction m with
  | nil => simp [mapSet, poolCount, mapGet, cnt]
  | cons p rest ih =>
    by_cases h : p.1 = d
    · simp [mapSet, h, poolCount, mapGet]
      omega
    · simp [mapSet, h, poolCount, mapGet]
      omega

/-- One grouping step moves exactly the claimed occurrences from the pool
into the group's non-primary names. -/
theorem groupStep_count (s : GroupSource) (m : List (String × List String))
    (d n : String) :
    (if (groupStep s m).1.dir = d then cnt n ((groupStep s m).1.names.drop 1)
     else 0) + poolCount n d (groupStep s m).2 = poolCount n d m := by
  by_cases hsc : (scanPool (NoExt s.filename) (mapGet m s.dir) 0).2 = []
  · have hlen := scanPool_len (NoExt s.filename) (mapGet m s.dir) 0
    have h1 : (scanPool (NoExt s.filename) (mapGet m s.dir) 0).1 = [] := by
      refine List.eq_nil_of_length_eq_zero ?_
      rw [hlen, hsc]
      rfl
    simp [groupStep, hsc, h1, cnt]
  · by_cases hd : s.dir = d
    · subst hd
      rw [if_pos (show (groupStep s m).1.dir = s.dir from rfl)]
      have hdrop : (groupStep s m).1.names.drop 1 =
          (scanPool (NoExt s.filename) (mapGet m s.dir) 0).1 := rfl
      have hsnd : (groupStep s m).2 = mapSet m s.dir
          (removeItems (mapGet m s.dir)
            (scanPool (NoExt s.filename) (mapGet m s.dir) 0).2) := by
        simp only [groupStep]
        rw [if_neg hsc]
      rw [hdrop, hsnd, scanPool_fst]
      have hrem : removeItems (mapGet m s.dir)
          (scanPool (NoExt s.filename) (mapGet m s.dir) 0).2 =
          (mapGet m s.dir).filter (fun f => !(strStartsWith f (NoExt s.filename))) :=
        removeItemsGo_scanPool (NoExt s.filename) (mapGet m s.dir) 0
      rw [hrem]
      have hmset := poolCount_mapSet_same n s.dir
        ((mapGet m s.dir).filter (fun f => !(strStartsWith f (NoExt s.filename)))) m
      have hpart := cnt_filter_partition n
        (fun f => strStartsWith f (NoExt s.filename)) (mapGet m s.dir)
      omega
    · simp only [groupStep, if_neg hsc, if_neg hd]
      rw [poolCount_mapSet_other n d s.dir _ hd]
      omega

/-- Across the whole grouping loop, the non-primary names of a directory's
groups and its remaining pool together count each filename exactly as the
initial pool did. -/
theorem groupSources_invariant (d n : String) :
    ∀ (sources : List GroupSource) (m : List (String × List String)),
      tailCount n d (groupSources true sources m).1 +
        poolCount n d (groupSources true sources m).2 = poolCount n d m := by
  intro sources
  induction sources with
  | nil => intro m; simp [groupSources, tailCount]
  | cons s rest ih =>
    intro m
    have hcons : groupSources true (s :: rest) m =
        ((groupStep s m).1 :: (groupSources true rest (groupStep s m).2).1,
          (groupSources true rest (groupStep s m).2).2) := rfl
    rw [hcons]
    simp only [tailCount]
    have h1 := groupStep_count s m d n
    have h2 := ih (groupStep s m).2
    omega

/-- Groups that list a filename of their directory, excluding primaries,
are bounded by the non-primary occurrence count. -/
theorem hits_le_tailCount (d n : String) :
    ∀ (sources : List GroupSource) (m : List (String × List String)),
      (∀ s ∈ sources, s.dir = d → s.filename ≠ n) →
      ((groupSources true sources m).1.filter (hitsName d n)).length ≤
        tailCount n d (groupSources true sources m).1 := by
  intro sources
  induction sources with
  | nil => intro m h; simp [groupSources, tailCount]
  | cons s rest ih =>
    intro m h
    have hcons : groupSources true (s :: rest) m =
        ((groupStep s m).1 :: (groupSources true rest (groupStep s m).2).1,
          (groupSources true rest (groupStep s m).2).2) := rfl
    rw [hcons]
    have htail := ih (groupStep s m).2 (fun s' hs' => h s' (List.mem_cons_of_mem _ hs'))
    cases hh : hitsName d n (groupStep s m).1
    · rw [List.filter_cons, if_neg (by simp [hh])]
      simp only [tailCount]
      omega
    · rw [List.filter_cons, if_pos (by simp [hh])]
      simp only [List.length_cons, tailCount]
      have hdir : (groupStep s m).1.dir = s.dir := rfl
      have hnames : (groupStep s m).1.names =
          s.filename :: (scanPool (NoExt s.filename) (mapGet m s.dir) 0).1 := rfl
      simp only [hitsName, Bool.and_eq_true, decide_eq_true_eq] at hh
      obtain ⟨hgd, hgn⟩ := hh
      have hsd : s.dir = d := by rw [← hdir]; exact hgd
      have hsf : s.filename ≠ n := h s (List.mem_cons_self s rest) hsd
      rw [hnames] at hgn
      have hn1 : n ∈ (scanPool (NoExt s.filename) (mapGet m s.dir) 0).1 := by
        rcases List.mem_cons.mp hgn with heq | hm
        · exact absurd heq.symm hsf
        · exact hm
      have hcnt : 1 ≤ cnt n ((groupStep s m).1.names.drop 1) := by
        have hdrop : (groupStep s m).1.names.drop 1 =
            (scanPool (NoExt s.filename) (mapGet m s.dir) 0).1 := rfl
        rw [hdrop]
        exact cnt_pos_of_mem n _ hn1
      rw [if_pos hgd]
      omega

/-- Movie singletons built from one pool entry that list a filename are
bounded by that entry's count of it. -/
theorem movie_entry_hits_le (d n d' : String) :
    ∀ files : List String,
      (((files.filter isMovieName).map (fun f => SGroup.mk d' [f])).filter
          (hitsName d n)).length ≤ (if d' = d then cnt n files else 0) := by
  intro files
  induction files with
  | nil => simp
  | cons f fs ih =>
    cases hm : isMovieName f
    · rw [List.filter_cons, if_neg (by simp [hm])]
      refine le_trans ih ?_
      by_cases hd : d' = d
      · simp only [if_pos hd, cnt]
        omega
      · simp [hd]
    · rw [List.filter_cons, if_pos (by simp [hm])]
      simp only [List.map_cons]
      rw [List.filter_cons]
      cases hp : hitsName d n (SGroup.mk d' [f])
      · rw [if_neg (by simp [hp])]
        refine le_trans ih ?_
        by_cases hd : d' = d
        · simp only [if_pos hd, cnt]
          omega
        · simp [hd]
      · rw [if_pos (by simp [hp])]
        simp only [List.length_cons]
        simp only [hitsName, Bool.and_eq_true, decide_eq_true_eq] at hp
        obtain ⟨hgd, hgn⟩ := hp
        have hfd : d' = d := hgd
        have hfn : f = n := (List.mem_singleton.mp hgn).symm
        have ihd := ih
        rw [if_pos hfd] at ihd
        rw [if_pos hfd]
        simp only [cnt, if_pos hfn]
        omega

/-- Movie singletons listing a filename of a directory are bounded by the
remaining pool's count of it. -/
theorem movie_hits_le (d n : String) :
    ∀ m : List (String × List String),
      ((movieGroups m).filter (hitsName d n)).length ≤ poolCount n d m := by
  intro m
  induction m with
  | nil => simp [movieGroups, poolCount]
  | cons p rest ih =>
    simp only [movieGroups, poolCount, List.filter_append, List.length_append]
    have h1 := movie_entry_hits_le d n p.1 p.2
    omega

/-- C7: with related-file grouping enabled, a filename that occurs at most
once in a directory's pool and is no image source's own name in that
directory is listed by at most one SourceGroup -- consumed candidates are
removed from the pool and cannot be claimed again, by the image groups or
by the movie pass. -/
theorem grouping_names_partition (sources : List GroupSource)
    (m0 : List (String × List String)) (d n : String)
    (hp : poolCount n d m0 ≤ 1)
    (hs : ∀ s ∈ sources, s.dir = d → s.filename ≠ n) :
    ((runGroups sources m0).filter (hitsName d n)).length ≤ 1 := by
  unfold runGroups
  rw [List.filter_append, List.length_append]
  have h1 := hits_le_tailCount d n sources m0 hs
  have h2 := movie_hits_le d n (groupSources true sources m0).2
  have h3 := groupSources_invariant d n sources m0
  omega

theorem grouping_names_partition_witness :
    ((runGroups sources7 m7).filter (hitsName "" "IMG001.cr2")).length ≤ 1 :=
  grouping_names_partition sources7 m7 "" "IMG001.cr2" (by decide) (by decide)

/-- C2 (amended): an unreadable directory makes the callback return the
error, which ends the listing loop at once -- the sibling entries after it
are never walked and the state is unchanged -- and a walk that returns an
error makes the run panic. -/
theorem walk_error_ends_discovery (doRecurse : Bool) (basePath dirPath : String)
    (st : ScanState) (name : String) (cs rest : List FSNode) :
    walkList doRecurse basePath (FSNode.dir name false cs :: rest) dirPath st =
      (st, WalkRes.fail (GoError.other "permission denied")) ∧
      ∀ (tree : FSNode) (sf bp : String) (rec : Bool) (st' : ScanState) (e : GoError),
        filepathWalk rec bp sf tree = (st', some e) →
        runScan tree sf bp rec = RunOutcome.panicked e st' := by
  constructor
  · rfl
  · intro tree sf bp rec st' e h
    unfold runScan
    rw [h]

theorem walk_error_ends_discovery_witness :
    walkList true "root" [FSNode.dir "bad" false [],
        FSNode.dir "good" true [FSNode.file "x.jpg"]] "root" ⟨[], []⟩ =
      (⟨[], []⟩, WalkRes.fail (GoError.other "permission denied")) ∧
      runScan tree2 "root" "root" true =
        RunOutcome.panicked (GoError.other "permission denied") ⟨[], []⟩ :=
  ⟨(walk_error_ends_discovery true "root" "root" ⟨[], []⟩ "bad" []
      [FSNode.dir "good" true [FSNode.file "x.jpg"]]).1,
    (walk_error_ends_discovery true "root" "root" ⟨[], []⟩ "bad" []
      [FSNode.dir "good" true [FSNode.file "x.jpg"]]).2 tree2 "root" "root" true
      ⟨[], []⟩ (GoError.other "permission denied") rfl⟩
